import Mathlib

/-!
Shallow embedding of the thread-scheduling / timer / page-allocator core of
the Pintos_team2 repository.

Sources embedded:
 * `threads/thread.h` (priority constants, thread status, TCB fields),
 * `devices/timer.c` (`timer_sleep`, `timer_interrupt`, `real_time_sleep`),
 * `threads/palloc.c` (`palloc_get_multiple`, `palloc_get_page`,
   `palloc_free_multiple`, `palloc_free_page`).

`threads/thread.c`, `threads/synch.c` and `lib/kernel/list.c` are not among
the available sources; the functions they define (`refresh_priority`,
`remove_with_lock`, `thread_wait`, `thread_awake`, the semaphore operations,
`cmp_priority_ready`, `list_insert_ordered`) are modelled from the spec, as
marked on each definition.

Machine integers (`int64_t` tick counts, `int` priorities) are modelled as
`Int`; the claims under study never reach the overflow boundary, and signed
overflow is undefined behaviour in the source language anyway.  Fatal
`ASSERT` / `PANIC` / `NOT_REACHED` outcomes are modelled with `Except` and
the `KernelPanic` error type.
-/

/-- Fatal outcomes: `ASSERT` failures, `PANIC` and `NOT_REACHED` in the C
sources halt the kernel; they are modelled as `Except.error` values. -/
inductive KernelPanic where
  | intrLevelAssert
  | denomAssert
  | outOfPages
  | pgOfsAssert
  | bitmapAllAssert
  | notReached
deriving DecidableEq, Repr

/-- `PRI_MIN` from `threads/thread.h`. -/
def PRI_MIN : Int := 0

/-- `PRI_DEFAULT` from `threads/thread.h`. -/
def PRI_DEFAULT : Int := 31

/-- `PRI_MAX` from `threads/thread.h`. -/
def PRI_MAX : Int := 63

/-- `enum thread_status` from `threads/thread.h`. -/
inductive ThreadStatus where
  | RUNNING
  | READY
  | BLOCKED
  | DYING
deriving DecidableEq, Repr

/-- One entry of a thread's `donations` list, as seen from the donee: the
donor's cached effective priority (`priority` field of the donor's TCB) and
the lock the donor is waiting on (`wait_on_lock`). -/
structure DonorEntry where
  priority : Int
  wait_on_lock : Option Nat
deriving DecidableEq, Repr

/-- The priority-donation slice of `struct thread` (`threads/thread.h`):
`init_priority` is the base priority, `priority` the cached effective
priority, `donations` the list of donors currently donating to this thread. -/
structure DThread where
  init_priority : Int
  priority : Int
  donations : List DonorEntry
deriving DecidableEq, Repr

/-- Modelled from the spec: `refresh_priority` (declared in `threads/thread.h`,
defined in `threads/thread.c`, which is not among the sources).  Per the spec,
on recomputation the thread's effective priority becomes
`max(base_priority, max over remaining donations of each donor's current
effective priority)`. -/
def refresh_priority (t : DThread) : DThread :=
  { t with priority := (t.donations.map (fun d => d.priority)).foldl max t.init_priority }

/-- Modelled from the spec: `remove_with_lock` (declared in `threads/thread.h`,
defined in `threads/thread.c`, not among the sources) removes from the
releasing thread's `donations` every donor waiting on the released lock. -/
def remove_with_lock (t : DThread) (l : Nat) : DThread :=
  { t with donations := t.donations.filter (fun d => d.wait_on_lock ≠ some l) }

/-- Modelled from the spec: `get_effective_priority(thread)` returns the
donation-adjusted priority used for scheduling decisions, i.e. the cached
`priority` field kept up to date by donation / recomputation. -/
def get_effective_priority (t : DThread) : Int := t.priority

/-- The donation-related effect of `lock_release` on the releasing thread
(spec 4.2/4.3): drop the donors of the released lock, then recompute the
effective priority. -/
def lock_release_update (t : DThread) (l : Nat) : DThread :=
  refresh_priority (remove_with_lock t l)

/-- The timer/sleep slice of `struct thread` (`threads/thread.h`): identifier,
status and the `awake_ticks` wake deadline stamped by `timer_sleep`. -/
structure SleepThread where
  tid : Int
  status : ThreadStatus
  awake_ticks : Int
deriving DecidableEq, Repr

/-- Scheduler state visible to `devices/timer.c`: the global tick counter
(`static int64_t ticks`), the sleep set (`wait_list`, threads blocked in a
timed sleep) and the ready list. -/
structure TimerState where
  ticks : Int
  wait_list : List SleepThread
  ready_list : List SleepThread
deriving DecidableEq, Repr

/-- Modelled from the spec: `thread_wait` (declared in `threads/thread.h`,
defined in `threads/thread.c`, not among the sources): the running caller is
removed from the CPU, marked `Blocked` and placed in the Sleep Set. -/
def thread_wait (s : TimerState) (cur : SleepThread) : TimerState :=
  { s with wait_list := s.wait_list ++ [{ cur with status := ThreadStatus.BLOCKED }] }

/-- Modelled from the spec: `thread_awake(now)` (declared in
`threads/thread.h`, defined in `threads/thread.c`, not among the sources):
the tick handler scans the Sleep Set and moves every thread whose
`wake_tick ≤ now` back to Ready. -/
def thread_awake (s : TimerState) (now : Int) : TimerState :=
  { s with
    wait_list := s.wait_list.filter (fun t => decide (now < t.awake_ticks)),
    ready_list := s.ready_list ++
      (s.wait_list.filter (fun t => decide (t.awake_ticks ≤ now))).map
        (fun t => { t with status := ThreadStatus.READY }) }

/-- `timer_sleep` from `devices/timer.c`: reads `start = timer_ticks ()`,
asserts `intr_get_level () == INTR_ON`, stamps the caller's
`awake_ticks = start + ticks` and calls `thread_wait ()` — unconditionally,
for every duration.  `cur` is the calling (running) thread, `intr_on` the
current interrupt level. -/
def timer_sleep (s : TimerState) (cur : SleepThread) (ticks : Int) (intr_on : Bool) :
    Except KernelPanic TimerState :=
  let start := s.ticks
  if intr_on = false then Except.error KernelPanic.intrLevelAssert
  else Except.ok (thread_wait s { cur with awake_ticks := start + ticks })

/-- `timer_interrupt` from `devices/timer.c`: `ticks++` first, then
`thread_awake (ticks)` with the new value.  (`thread_tick ()` only updates
statistics/preemption bookkeeping outside the state modelled here.) -/
def timer_interrupt (s : TimerState) : TimerState :=
  thread_awake { s with ticks := s.ticks + 1 } (s.ticks + 1)

/-- `k` consecutive timer interrupts. -/
def tickN : Nat → TimerState → TimerState
  | 0, s => s
  | k + 1, s => timer_interrupt (tickN k s)

/-- `real_time_sleep` from `devices/timer.c`.  `TIMER_FREQ` is a build-time
constant from `devices/timer.h` (not among the sources), passed here as the
argument `freq`.  Converts `num/denom` seconds to ticks with C truncating
division, asserts `intr_get_level () == INTR_ON`, then either delegates to
`timer_sleep` (at least one full tick) or asserts `denom % 1000 == 0` and
busy-waits, which leaves the scheduler state unchanged. -/
def real_time_sleep (s : TimerState) (cur : SleepThread) (num denom freq : Int)
    (intr_on : Bool) : Except KernelPanic TimerState :=
  let t := Int.tdiv (num * freq) denom
  if intr_on = false then Except.error KernelPanic.intrLevelAssert
  else if 0 < t then timer_sleep s cur t intr_on
  else if Int.tmod denom 1000 = 0 then Except.ok s
  else Except.error KernelPanic.denomAssert

/-- `PGSIZE` from `threads/vaddr.h` (4 kB pages). -/
def PGSIZE : Nat := 4096

/-- `pg_ofs`: offset of an address within its page. -/
def pg_ofs (p : Nat) : Nat := p % PGSIZE

/-- `pg_no`: page number of an address. -/
def pg_no (p : Nat) : Nat := p / PGSIZE

/-- `enum palloc_flags` from `threads/palloc.h` (`PAL_ASSERT`, `PAL_ZERO`,
`PAL_USER`), modelled as one boolean per flag bit. -/
structure PallocFlags where
  pal_assert : Bool
  pal_zero : Bool
  pal_user : Bool
deriving DecidableEq, Repr

/-- `struct pool` from `threads/palloc.c`: the base address of the pool and
the `used_map` bitmap (`true` = page in use).  The pool lock only serialises
the bitmap scan and is not part of the sequential state. -/
structure PoolM where
  base : Nat
  used_map : List Bool
deriving DecidableEq, Repr

/-- The two pools (`static struct pool kernel_pool, user_pool`). -/
structure PallocState where
  kernel_pool : PoolM
  user_pool : PoolM
deriving DecidableEq, Repr

/-- `bitmap_scan (b, 0, cnt, false)` from `lib/kernel/bitmap.c`: the lowest
index `i` with `i + cnt ≤ size` such that bits `i .. i+cnt-1` are all clear;
`BITMAP_ERROR` (here `none`) if there is no such run. -/
def bitmap_scan (m : List Bool) (cnt : Nat) : Option Nat :=
  (List.range (m.length + 1 - cnt)).find? fun i =>
    (List.range cnt).all fun j => m.getD (i + j) true = false

/-- `bitmap_set_multiple (b, start, cnt, v)`: sets bits `start .. start+cnt-1`
to `v`. -/
def bitmap_set_multiple (m : List Bool) (start cnt : Nat) (v : Bool) : List Bool :=
  m.mapIdx fun i b => if start ≤ i ∧ i < start + cnt then v else b

/-- `bitmap_all (b, start, cnt)`: all of bits `start .. start+cnt-1` are set. -/
def bitmap_all (m : List Bool) (start cnt : Nat) : Bool :=
  (List.range cnt).all fun j => m.getD (start + j) false = true

/-- `bitmap_scan_and_flip (b, 0, cnt, false)`: scan for a clear run and flip
it to set; on failure the bitmap is unchanged. -/
def bitmap_scan_and_flip (m : List Bool) (cnt : Nat) : Option Nat × List Bool :=
  match bitmap_scan m cnt with
  | some i => (some i, bitmap_set_multiple m i cnt true)
  | none => (none, m)

/-- `page_from_pool` from `threads/palloc.c`. -/
def page_from_pool (pool : PoolM) (page : Nat) : Bool :=
  decide (pg_no pool.base ≤ pg_no page ∧ pg_no page < pg_no pool.base + pool.used_map.length)

/-- `palloc_get_multiple` from `threads/palloc.c`: picks the pool from
`PAL_USER`, scans-and-flips its bitmap; on success returns the page address
(`PAL_ZERO` only clears page contents, outside the allocator state); on
failure returns NULL (`none`) unless `PAL_ASSERT` is set, in which case it
panics with "palloc_get: out of pages". -/
def palloc_get_multiple (flags : PallocFlags) (page_cnt : Nat) (st : PallocState) :
    Except KernelPanic (Option Nat × PallocState) :=
  let pool := if flags.pal_user then st.user_pool else st.kernel_pool
  match bitmap_scan_and_flip pool.used_map page_cnt with
  | (some idx, m2) =>
      let st2 :=
        if flags.pal_user then { st with user_pool := { pool with used_map := m2 } }
        else { st with kernel_pool := { pool with used_map := m2 } }
      Except.ok (some (pool.base + PGSIZE * idx), st2)
  | (none, _) =>
      if flags.pal_assert then Except.error KernelPanic.outOfPages
      else Except.ok (none, st)

/-- `palloc_get_page` from `threads/palloc.c`. -/
def palloc_get_page (flags : PallocFlags) (st : PallocState) :
    Except KernelPanic (Option Nat × PallocState) :=
  palloc_get_multiple flags 1 st

/-- `palloc_free_multiple` from `threads/palloc.c`.  NULL is address 0.  Note
the order: `ASSERT (pg_ofs (pages) == 0)` runs before the
`pages == NULL || page_cnt == 0` early return.  The debug `memset (0xcc)`
touches page contents only, outside the allocator state. -/
def palloc_free_multiple (st : PallocState) (pages : Nat) (page_cnt : Nat) :
    Except KernelPanic PallocState :=
  if pg_ofs pages ≠ 0 then Except.error KernelPanic.pgOfsAssert
  else if pages = 0 ∨ page_cnt = 0 then Except.ok st
  else if page_from_pool st.kernel_pool pages then
    let pool := st.kernel_pool
    let page_idx := pg_no pages - pg_no pool.base
    if bitmap_all pool.used_map page_idx page_cnt then
      Except.ok { st with kernel_pool :=
        { pool with used_map := bitmap_set_multiple pool.used_map page_idx page_cnt false } }
    else Except.error KernelPanic.bitmapAllAssert
  else if page_from_pool st.user_pool pages then
    let pool := st.user_pool
    let page_idx := pg_no pages - pg_no pool.base
    if bitmap_all pool.used_map page_idx page_cnt then
      Except.ok { st with user_pool :=
        { pool with used_map := bitmap_set_multiple pool.used_map page_idx page_cnt false } }
    else Except.error KernelPanic.bitmapAllAssert
  else Except.error KernelPanic.notReached

/-- `palloc_free_page` from `threads/palloc.c`. -/
def palloc_free_page (st : PallocState) (page : Nat) : Except KernelPanic PallocState :=
  palloc_free_multiple st page 1

/-- A waiter on a semaphore: thread identifier and its effective priority. -/
structure SemWaiter where
  tid : Nat
  priority : Int
deriving DecidableEq, Repr

/-- State of one semaphore together with the thread-status view the scheduler
keeps in lock-step with it.  `completed` counts completed `down`s and `ups`
counts `up` calls; both are observation counters that record what happened,
they do not influence any transition. -/
structure SemaState where
  value : Int
  waiters : List SemWaiter
  status : Nat → ThreadStatus
  completed : Nat
  ups : Nat

/-- The earliest waiter of maximal priority among `w :: ws` (strict `>`
keeps the earlier element on ties). -/
def pickMax (w : SemWaiter) (ws : List SemWaiter) : SemWaiter :=
  ws.foldl (fun a b => if a.priority < b.priority then b else a) w

/-- Remove the first waiter with the given thread id. -/
def eraseTid (i : Nat) : List SemWaiter → List SemWaiter
  | [] => []
  | x :: xs => if x.tid = i then xs else x :: eraseTid i xs

/-- Pointwise update of the thread-status view. -/
def setStatus (f : Nat → ThreadStatus) (i : Nat) (st : ThreadStatus) :
    Nat → ThreadStatus :=
  fun j => if j = i then st else f j

/-- Modelled from the spec: `sema_down` (`threads/synch.c` is not among the
sources).  With interrupts disabled: while the count is zero the caller is
appended to the waiter list and blocked; otherwise the count is decremented
and the `down` completes.  A thread that is already blocked cannot call
`down`, so such an event leaves the state unchanged. -/
def sema_down (s : SemaState) (t : SemWaiter) : SemaState :=
  if s.status t.tid = ThreadStatus.BLOCKED then s
  else if s.value = 0 then
    { s with waiters := s.waiters ++ [t],
             status := setStatus s.status t.tid ThreadStatus.BLOCKED }
  else
    { s with value := s.value - 1, completed := s.completed + 1 }

/-- Modelled from the spec: `sema_up` (`threads/synch.c` is not among the
sources).  If the waiter collection is non-empty, the highest-effective-
priority waiter (FIFO on ties) is removed and moved to Ready, completing its
pending `down`; otherwise the count is incremented. -/
def sema_up (s : SemaState) : SemaState :=
  match s.waiters with
  | [] => { s with value := s.value + 1, ups := s.ups + 1 }
  | w :: ws =>
      let m := pickMax w ws
      { s with waiters := eraseTid m.tid (w :: ws),
               status := setStatus s.status m.tid ThreadStatus.READY,
               completed := s.completed + 1, ups := s.ups + 1 }

/-- One semaphore event. -/
inductive SemaOp where
  | down (t : SemWaiter)
  | up
deriving DecidableEq, Repr

/-- Modelled from the spec: `sema_init (n)` with `n ≥ 0`; no waiter yet,
no thread blocked on this semaphore. -/
def sema_init (n : Int) : SemaState :=
  { value := n, waiters := [], status := fun _ => ThreadStatus.READY,
    completed := 0, ups := 0 }

/-- One step of the semaphore state machine. -/
def semaStep (s : SemaState) : SemaOp → SemaState
  | SemaOp.down t => sema_down s t
  | SemaOp.up => sema_up s

/-- Run a finite sequence of `down`/`up` events from `init(n)`. -/
def runSema (n : Int) (ops : List SemaOp) : SemaState :=
  ops.foldl semaStep (sema_init n)

/-- The ready-queue slice of a TCB: identifier, effective priority and the
order in which the thread became Ready (arrival stamp). -/
structure RThread where
  tid : Nat
  priority : Int
  arrival : Nat
deriving DecidableEq, Repr

/-- Modelled from the spec: `cmp_priority_ready` (declared in
`threads/thread.h`, defined in `threads/thread.c`, not among the sources):
the `list_less_func` that orders the ready list by effective priority,
descending — `A` comes before `B` when `A`'s priority is strictly higher. -/
def cmp_priority_ready (a b : RThread) : Bool := decide (b.priority < a.priority)

/-- `list_insert_ordered` from `lib/kernel/list.c` (not among the sources;
standard Pintos semantics): insert the new element before the first element
it compares strictly less-than, i.e. after every existing element of equal
priority. -/
def list_insert_ordered (t : RThread) : List RThread → List RThread
  | [] => [t]
  | x :: xs =>
      if cmp_priority_ready t x then t :: x :: xs
      else x :: list_insert_ordered t xs

/-- The order the spec requires of the ready queue: strictly descending
effective priority, FIFO (ascending arrival) among equals. -/
def readyRel (a b : RThread) : Prop :=
  b.priority < a.priority ∨ (a.priority = b.priority ∧ a.arrival < b.arrival)

/-- Build the ready list by inserting threads in arrival order, starting at
arrival stamp `i`: each `(tid, priority)` pair becomes Ready in sequence and
is inserted with `list_insert_ordered`. -/
def buildReady : Nat → List (Nat × Int) → List RThread → List RThread
  | _, [], acc => acc
  | i, x :: xs, acc =>
      buildReady (i + 1) xs
        (list_insert_ordered { tid := x.1, priority := x.2, arrival := i } acc)

/-- The ready queue reached from empty after the given arrivals. -/
def ready_queue (xs : List (Nat × Int)) : List RThread := buildReady 0 xs []

/-- Modelled from the spec: pick-next — `next_thread_to_run` pops the front
of the priority-ordered ready list. -/
def next_thread_to_run (l : List RThread) : Option RThread := l.head?

/-- The semaphore invariant of the spec: the count is never negative; runs
account for every completed `down` (`value + completed = n + ups`, so at
most `n + ups` downs have completed); a thread id is in the waiter
collection iff that thread is blocked on the semaphore; and no thread
appears twice among the waiters. -/
def SemaInv (n : Int) (s : SemaState) : Prop :=
  0 ≤ s.value ∧
  s.value + (s.completed : Int) = n + (s.ups : Int) ∧
  (∀ i : Nat, i ∈ s.waiters.map (fun w => w.tid) ↔ s.status i = ThreadStatus.BLOCKED) ∧
  (s.waiters.map (fun w => w.tid)).Nodup

/-! ## Helper lemmas -/

theorem foldl_max_le_start (l : List Int) (a : Int) : a ≤ l.foldl max a := by
  induction l generalizing a with
  | nil => exact le_refl a
  | cons b bs ih => exact le_trans (le_max_left a b) (ih (max a b))

theorem foldl_max_le_mem (l : List Int) (a x : Int) : x ∈ l → x ≤ l.foldl max a := by
  induction l generalizing a with
  | nil => intro hx; cases hx
  | cons b bs ih =>
      intro hx
      rcases List.mem_cons.mp hx with h | h
      · subst h
        exact le_trans (le_max_right a x) (foldl_max_le_start bs (max a x))
      · exact ih (max a b) h

theorem foldl_max_cases (l : List Int) (a : Int) :
    l.foldl max a = a ∨ l.foldl max a ∈ l := by
  induction l generalizing a with
  | nil => exact Or.inl rfl
  | cons b bs ih =>
      rcases ih (max a b) with h | h
      · rcases max_cases a b with ⟨hm, _⟩ | ⟨hm, _⟩
        · exact Or.inl (by rw [List.foldl_cons, h, hm])
        · exact Or.inr (by rw [List.foldl_cons, h, hm]; exact List.mem_cons_self b bs)
      · exact Or.inr (List.mem_cons_of_mem b h)

theorem refresh_priority_eff (t : DThread) :
    get_effective_priority (refresh_priority t)
      = (t.donations.map (fun d => d.priority)).foldl max t.init_priority := rfl

theorem refresh_char (t : DThread) :
    t.init_priority ≤ get_effective_priority (refresh_priority t) ∧
    (∀ d ∈ t.donations, d.priority ≤ get_effective_priority (refresh_priority t)) ∧
    (get_effective_priority (refresh_priority t) = t.init_priority ∨
      ∃ d ∈ t.donations, get_effective_priority (refresh_priority t) = d.priority) := by
  rw [refresh_priority_eff]
  refine ⟨foldl_max_le_start _ _, fun d hd => ?_, ?_⟩
  · exact foldl_max_le_mem _ _ _ (List.mem_map_of_mem (fun d => d.priority) hd)
  · rcases foldl_max_cases (t.donations.map (fun d => d.priority)) t.init_priority with h | h
    · exact Or.inl h
    · rcases List.mem_map.mp h with ⟨d, hd, hde⟩
      exact Or.inr ⟨d, hd, hde.symm⟩

/-! ## Claims -/

/-- C1: a thread's effective priority, as returned by `get_effective_priority`
after recomputation, equals `max(base_priority, max over donors of the
donor's current effective priority)` — characterised as: it bounds the base
and every donor from above and is attained by one of them; immediately after
the thread releases lock `l` it is recomputed from exactly the donors not
waiting on `l`, and with no remaining donors it equals `base_priority`. -/
theorem C1_effective_priority_is_max :
    (∀ t : DThread,
      t.init_priority ≤ get_effective_priority (refresh_priority t) ∧
      (∀ d ∈ t.donations, d.priority ≤ get_effective_priority (refresh_priority t)) ∧
      (get_effective_priority (refresh_priority t) = t.init_priority ∨
        ∃ d ∈ t.donations, get_effective_priority (refresh_priority t) = d.priority)) ∧
    (∀ (t : DThread) (l : Nat),
      (lock_release_update t l).donations
          = t.donations.filter (fun d => d.wait_on_lock ≠ some l) ∧
      t.init_priority ≤ get_effective_priority (lock_release_update t l) ∧
      (∀ d ∈ (lock_release_update t l).donations,
        d.priority ≤ get_effective_priority (lock_release_update t l)) ∧
      (get_effective_priority (lock_release_update t l) = t.init_priority ∨
        ∃ d ∈ (lock_release_update t l).donations,
          get_effective_priority (lock_release_update t l) = d.priority) ∧
      ((lock_release_update t l).donations = [] →
        get_effective_priority (lock_release_update t l) = t.init_priority)) := by
  refine ⟨refresh_char, fun t l => ?_⟩
  have h := refresh_char (remove_with_lock t l)
  refine ⟨rfl, h.1, h.2.1, h.2.2, fun hnil => ?_⟩
  rcases h.2.2 with he | ⟨d, hd, _⟩
  · exact he
  · have hnil2 : (remove_with_lock t l).donations = [] := hnil
    rw [hnil2] at hd; cases hd

/-- Witness for C1 at concrete inputs: a thread with base 31 and donors of
effective priorities 40 (waiting on lock 1) and 35 (waiting on lock 2) has
effective priority at least 40; after releasing lock 1 the donor on lock 1 is
gone, and after also releasing lock 2 the priority reverts to the base 31. -/
theorem C1_effective_priority_is_max_w :
    (⟨40, some 1⟩ : DonorEntry).priority ≤
        get_effective_priority (refresh_priority ⟨31, 31, [⟨40, some 1⟩, ⟨35, some 2⟩]⟩) ∧
    (lock_release_update ⟨31, 31, [⟨40, some 1⟩, ⟨35, some 2⟩]⟩ 1).donations
        = [⟨35, some 2⟩] ∧
    get_effective_priority (lock_release_update ⟨31, 40, [⟨35, some 2⟩]⟩ 2) = 31 :=
  ⟨(C1_effective_priority_is_max.1 ⟨31, 31, [⟨40, some 1⟩, ⟨35, some 2⟩]⟩).2.1
      ⟨40, some 1⟩ (by decide),
   by
    have h := (C1_effective_priority_is_max.2 ⟨31, 31, [⟨40, some 1⟩, ⟨35, some 2⟩]⟩ 1).1
    simpa using h,
   (C1_effective_priority_is_max.2 ⟨31, 40, [⟨35, some 2⟩]⟩ 2).2.2.2.2 (by decide)⟩

/-- C8: the priority constants of `threads/thread.h` are `PRI_MIN = 0`,
`PRI_MAX = 63`, `PRI_DEFAULT = 31`, and the effective-priority recomputation
keeps every priority inside `[PRI_MIN, PRI_MAX]` whenever the base priority
and every donor's priority are inside that range. -/
theorem C8_priority_domain :
    PRI_MIN = 0 ∧ PRI_MAX = 63 ∧ PRI_DEFAULT = 31 ∧
    ∀ t : DThread, PRI_MIN ≤ t.init_priority → t.init_priority ≤ PRI_MAX →
      (∀ d ∈ t.donations, PRI_MIN ≤ d.priority ∧ d.priority ≤ PRI_MAX) →
      PRI_MIN ≤ get_effective_priority (refresh_priority t) ∧
      get_effective_priority (refresh_priority t) ≤ PRI_MAX := by
  refine ⟨rfl, rfl, rfl, fun t h0 h1 hd => ?_⟩
  have hc := refresh_char t
  refine ⟨le_trans h0 hc.1, ?_⟩
  rcases hc.2.2 with he | ⟨d, hdm, hde⟩
  · rw [he]; exact h1
  · rw [hde]; exact (hd d hdm).2

/-- Witness for C8 at a concrete thread (base 31, donors 0 and 63). -/
theorem C8_priority_domain_w :
    PRI_MIN ≤ get_effective_priority (refresh_priority ⟨31, 31, [⟨0, some 1⟩, ⟨63, some 2⟩]⟩) ∧
    get_effective_priority (refresh_priority ⟨31, 31, [⟨0, some 1⟩, ⟨63, some 2⟩]⟩) ≤ PRI_MAX :=
  C8_priority_domain.2.2.2 ⟨31, 31, [⟨0, some 1⟩, ⟨63, some 2⟩]⟩
    (by decide) (by decide) (by decide)

theorem timer_interrupt_ticks (s : TimerState) : (timer_interrupt s).ticks = s.ticks + 1 := rfl

theorem tickN_ticks (k : Nat) (s : TimerState) : (tickN k s).ticks = s.ticks + k := by
  induction k with
  | zero => simp [tickN]
  | succ k ih =>
      show (timer_interrupt (tickN k s)).ticks = s.ticks + (k + 1 : Nat)
      rw [timer_interrupt_ticks, ih]
      push_cast
      ring

theorem tickN_add (a b : Nat) (s : TimerState) : tickN (a + b) s = tickN a (tickN b s) := by
  induction a with
  | zero => simp [tickN]
  | succ a ih =>
      have : a + 1 + b = (a + b) + 1 := by omega
      rw [this]
      show timer_interrupt (tickN (a + b) s) = tickN (a + 1) (tickN b s)
      rw [ih]
      rfl

theorem mem_wait_timer_interrupt {t : SleepThread} {s : TimerState}
    (h : t ∈ s.wait_list) (hlt : s.ticks + 1 < t.awake_ticks) :
    t ∈ (timer_interrupt s).wait_list := by
  show t ∈ s.wait_list.filter (fun u => decide (s.ticks + 1 < u.awake_ticks))
  exact List.mem_filter.mpr ⟨h, by simpa using hlt⟩

theorem mem_wait_tickN (t : SleepThread) (s : TimerState) (k : Nat)
    (h : t ∈ s.wait_list) (hlt : s.ticks + k < t.awake_ticks) :
    t ∈ (tickN k s).wait_list := by
  induction k with
  | zero => simpa using h
  | succ k ih =>
      have hk : s.ticks + (k : Int) < t.awake_ticks := by push_cast at hlt ⊢; omega
      show t ∈ (timer_interrupt (tickN k s)).wait_list
      apply mem_wait_timer_interrupt (ih hk)
      rw [tickN_ticks]
      push_cast at hlt ⊢
      omega

theorem mem_ready_step (t : SleepThread) (s : TimerState) (k : Nat)
    (hmem : t ∈ (tickN k s).wait_list) (hle : t.awake_ticks ≤ s.ticks + k + 1) :
    ({ t with status := ThreadStatus.READY } : SleepThread) ∈ (tickN (k + 1) s).ready_list := by
  show ({ t with status := ThreadStatus.READY } : SleepThread) ∈
    (timer_interrupt (tickN k s)).ready_list
  apply List.mem_append.mpr
  refine Or.inr (List.mem_map_of_mem _ (List.mem_filter.mpr ⟨hmem, ?_⟩))
  rw [tickN_ticks]
  simp only [decide_eq_true_eq]
  omega

theorem mem_ready_persist (t : SleepThread) (s : TimerState) (k : Nat)
    (h : t ∈ s.ready_list) : t ∈ (tickN k s).ready_list := by
  induction k with
  | zero => simpa using h
  | succ k ih =>
      show t ∈ (timer_interrupt (tickN k s)).ready_list
      exact List.mem_append.mpr (Or.inl ih)

/-- C2: on every tick, `timer_interrupt` first increments the global tick
counter and then moves back to Ready every sleeping thread whose wake tick is
`≤` the new counter value; consequently a thread that goes to sleep at tick
`S` for a positive duration `D` is still Blocked (in the Sleep Set with
status `BLOCKED`) after every `k < D` ticks, i.e. at every tick strictly
before `S + D`, and is Ready after every `k ≥ D` ticks, in particular at tick
`S + D`. -/
theorem C2_tick_handler_wakes_sleepers :
    (∀ s : TimerState,
      timer_interrupt s = thread_awake { s with ticks := s.ticks + 1 } (s.ticks + 1)) ∧
    (∀ (s : TimerState) (cur : SleepThread) (D : Int) (s1 : TimerState) (k : Nat),
      0 < D → timer_sleep s cur D true = Except.ok s1 →
      (((k : Int) < D →
        (⟨cur.tid, ThreadStatus.BLOCKED, s.ticks + D⟩ : SleepThread) ∈ (tickN k s1).wait_list) ∧
       (D ≤ (k : Int) →
        (⟨cur.tid, ThreadStatus.READY, s.ticks + D⟩ : SleepThread) ∈ (tickN k s1).ready_list))) := by
  refine ⟨fun s => rfl, fun s cur D s1 k hD hok => ?_⟩
  have hok2 : Except.ok (thread_wait s { cur with awake_ticks := s.ticks + D })
      = Except.ok s1 := hok
  have hs1 : s1 = { s with wait_list :=
      s.wait_list ++ [⟨cur.tid, ThreadStatus.BLOCKED, s.ticks + D⟩] } :=
    (Except.ok.inj hok2).symm
  have hmem : (⟨cur.tid, ThreadStatus.BLOCKED, s.ticks + D⟩ : SleepThread) ∈ s1.wait_list := by
    rw [hs1]
    exact List.mem_append.mpr (Or.inr (List.mem_singleton.mpr rfl))
  have hticks : s1.ticks = s.ticks := by rw [hs1]
  constructor
  · intro hk
    apply mem_wait_tickN _ _ _ hmem
    rw [hticks]
    show s.ticks + (k : Int) < s.ticks + D
    omega
  · intro hk
    have hdD : ((D.toNat : Int)) = D := Int.toNat_of_nonneg (le_of_lt hD)
    have hd1 : 1 ≤ D.toNat := by omega
    have hkd : D.toNat ≤ k := by omega
    have hw : (⟨cur.tid, ThreadStatus.BLOCKED, s.ticks + D⟩ : SleepThread)
        ∈ (tickN (D.toNat - 1) s1).wait_list := by
      apply mem_wait_tickN _ _ _ hmem
      rw [hticks]
      show s.ticks + ((D.toNat - 1 : Nat) : Int) < s.ticks + D
      omega
    have hr : (⟨cur.tid, ThreadStatus.READY, s.ticks + D⟩ : SleepThread)
        ∈ (tickN ((D.toNat - 1) + 1) s1).ready_list := by
      refine mem_ready_step ⟨cur.tid, ThreadStatus.BLOCKED, s.ticks + D⟩ s1 (D.toNat - 1) hw ?_
      rw [hticks]
      show s.ticks + D ≤ s.ticks + ((D.toNat - 1 : Nat) : Int) + 1
      omega
    rw [Nat.sub_add_cancel hd1] at hr
    have hsplit : k = (k - D.toNat) + D.toNat := by omega
    rw [hsplit, tickN_add]
    exact mem_ready_persist _ _ _ hr

/-- Witness for C2: a thread sleeping from tick 100 for 10 ticks is still in
the Sleep Set, Blocked, after 9 ticks (tick 109) and is in the ready list
after 10 ticks (tick 110). -/
theorem C2_tick_handler_wakes_sleepers_w :
    (⟨1, ThreadStatus.BLOCKED, 110⟩ : SleepThread)
        ∈ (tickN 9 ⟨100, [⟨1, ThreadStatus.BLOCKED, 110⟩], []⟩).wait_list ∧
    (⟨1, ThreadStatus.READY, 110⟩ : SleepThread)
        ∈ (tickN 10 ⟨100, [⟨1, ThreadStatus.BLOCKED, 110⟩], []⟩).ready_list :=
  ⟨(C2_tick_handler_wakes_sleepers.2 ⟨100, [], []⟩ ⟨1, ThreadStatus.RUNNING, 0⟩ 10
      ⟨100, [⟨1, ThreadStatus.BLOCKED, 110⟩], []⟩ 9 (by omega) rfl).1 (by omega),
   (C2_tick_handler_wakes_sleepers.2 ⟨100, [], []⟩ ⟨1, ThreadStatus.RUNNING, 0⟩ 10
      ⟨100, [⟨1, ThreadStatus.BLOCKED, 110⟩], []⟩ 10 (by omega) rfl).2 (by omega)⟩

/-- C3 counterexample: `timer_sleep` called with a duration of 0 at tick 100
(interrupts on) is not a no-op — the calling thread is placed in the Sleep
Set with status `BLOCKED` and `awake_ticks = 100`, so it does not remain
Ready/Running; in particular the scheduler state is changed. -/
theorem C3_counterexample :
    timer_sleep ⟨100, [], []⟩ ⟨1, ThreadStatus.RUNNING, 0⟩ 0 true
        = Except.ok ⟨100, [⟨1, ThreadStatus.BLOCKED, 100⟩], []⟩ ∧
    timer_sleep ⟨100, [], []⟩ ⟨1, ThreadStatus.RUNNING, 0⟩ 0 true
        ≠ Except.ok ⟨100, [], []⟩ := by
  refine ⟨rfl, fun h => ?_⟩
  have h2 : Except.ok (⟨100, [⟨1, ThreadStatus.BLOCKED, 100⟩], []⟩ : TimerState)
      = Except.ok (⟨100, [], []⟩ : TimerState) := h
  simpa using congrArg TimerState.wait_list (Except.ok.inj h2)

/-- C3 amended: for a duration `d ≤ 0`, `timer_sleep` is not a no-op: it
still stamps `awake_ticks = now + d` and blocks the caller into the Sleep
Set; since the stamped wake tick is at most the current tick, the thread is
moved back to Ready by the very next timer interrupt. -/
theorem C3_amended_nonpositive_sleep_blocks :
    ∀ (s : TimerState) (cur : SleepThread) (d : Int), d ≤ 0 →
      timer_sleep s cur d true = Except.ok { s with wait_list :=
          s.wait_list ++ [⟨cur.tid, ThreadStatus.BLOCKED, s.ticks + d⟩] } ∧
      (⟨cur.tid, ThreadStatus.READY, s.ticks + d⟩ : SleepThread) ∈
        (tickN 1 { s with wait_list :=
          s.wait_list ++ [⟨cur.tid, ThreadStatus.BLOCKED, s.ticks + d⟩] }).ready_list := by
  intro s cur d hd
  refine ⟨rfl, ?_⟩
  refine mem_ready_step ⟨cur.tid, ThreadStatus.BLOCKED, s.ticks + d⟩ _ 0 ?_ ?_
  · show (⟨cur.tid, ThreadStatus.BLOCKED, s.ticks + d⟩ : SleepThread) ∈
      s.wait_list ++ [⟨cur.tid, ThreadStatus.BLOCKED, s.ticks + d⟩]
    exact List.mem_append.mpr (Or.inr (List.mem_singleton.mpr rfl))
  · show s.ticks + d ≤ ({ s with wait_list :=
      s.wait_list ++ [⟨cur.tid, ThreadStatus.BLOCKED, s.ticks + d⟩] } : TimerState).ticks + 0 + 1
    show s.ticks + d ≤ s.ticks + 0 + 1
    omega

/-- Witness for C3's amended claim at duration 0, tick 100. -/
theorem C3_amended_nonpositive_sleep_blocks_w :
    timer_sleep ⟨100, [], []⟩ ⟨1, ThreadStatus.RUNNING, 0⟩ 0 true
        = Except.ok ⟨100, [⟨1, ThreadStatus.BLOCKED, 100⟩], []⟩ ∧
    (⟨1, ThreadStatus.READY, 100⟩ : SleepThread) ∈
      (tickN 1 ⟨100, [⟨1, ThreadStatus.BLOCKED, 100⟩], []⟩).ready_list :=
  C3_amended_nonpositive_sleep_blocks ⟨100, [], []⟩ ⟨1, ThreadStatus.RUNNING, 0⟩ 0 (by omega)

/-- C4: for every positive duration `d` requested at current tick `now`,
`timer_sleep` stamps the caller's `awake_ticks` to exactly `now + d` and
blocks the caller by appending it to the Sleep Set, all in one transition —
there is no busy-polling loop (the polling loop of the stock implementation
is commented out in the source). -/
theorem C4_sleep_stamps_wake_tick :
    ∀ (s : TimerState) (cur : SleepThread) (d : Int), 0 < d →
      timer_sleep s cur d true = Except.ok { s with wait_list :=
          s.wait_list ++ [⟨cur.tid, ThreadStatus.BLOCKED, s.ticks + d⟩] } := by
  intro s cur d _
  rfl

/-- Witness for C4: sleeping 10 ticks at tick 100 stamps wake tick 110. -/
theorem C4_sleep_stamps_wake_tick_w :
    timer_sleep ⟨100, [], []⟩ ⟨1, ThreadStatus.RUNNING, 0⟩ 10 true
        = Except.ok ⟨100, [⟨1, ThreadStatus.BLOCKED, 110⟩], []⟩ :=
  C4_sleep_stamps_wake_tick ⟨100, [], []⟩ ⟨1, ThreadStatus.RUNNING, 0⟩ 10 (by omega)

/-- C9: `timer_sleep` and `real_time_sleep` assert that interrupts are
enabled: every call with interrupts disabled halts with the
`intr_get_level () == INTR_ON` assertion failure, and under the precondition
(interrupts enabled) that assertion never fires — `timer_sleep` always
succeeds, and `real_time_sleep` never reports the interrupt-level assertion. -/
theorem C9_sleep_requires_interrupts_on :
    (∀ (s : TimerState) (cur : SleepThread) (d : Int),
      timer_sleep s cur d false = Except.error KernelPanic.intrLevelAssert) ∧
    (∀ (s : TimerState) (cur : SleepThread) (num denom freq : Int),
      real_time_sleep s cur num denom freq false
        = Except.error KernelPanic.intrLevelAssert) ∧
    (∀ (s : TimerState) (cur : SleepThread) (d : Int),
      timer_sleep s cur d true
        = Except.ok (thread_wait s { cur with awake_ticks := s.ticks + d })) ∧
    (∀ (s : TimerState) (cur : SleepThread) (num denom freq : Int),
      real_time_sleep s cur num denom freq true
        ≠ Except.error KernelPanic.intrLevelAssert) := by
  refine ⟨fun s cur d => rfl, fun s cur num denom freq => rfl, fun s cur d => rfl,
    fun s cur num denom freq h => ?_⟩
  unfold real_time_sleep at h
  simp only [Bool.true_eq_false, if_false] at h
  split at h
  · have h2 : Except.ok (thread_wait s
        { cur with awake_ticks := s.ticks + Int.tdiv (num * freq) denom })
          = Except.error KernelPanic.intrLevelAssert := h
    exact Except.noConfusion h2
  · split at h
    · cases h
    · cases Except.error.inj h

/-- Witness for C9 at concrete calls: sleeping with interrupts disabled
panics on the interrupt-level assertion; with interrupts enabled it blocks
normally. -/
theorem C9_sleep_requires_interrupts_on_w :
    timer_sleep ⟨100, [], []⟩ ⟨1, ThreadStatus.RUNNING, 0⟩ 10 false
        = Except.error KernelPanic.intrLevelAssert ∧
    real_time_sleep ⟨100, [], []⟩ ⟨1, ThreadStatus.RUNNING, 0⟩ 50 1000 100 false
        = Except.error KernelPanic.intrLevelAssert ∧
    real_time_sleep ⟨100, [], []⟩ ⟨1, ThreadStatus.RUNNING, 0⟩ 50 1000 100 true
        ≠ Except.error KernelPanic.intrLevelAssert :=
  ⟨C9_sleep_requires_interrupts_on.1 ⟨100, [], []⟩ ⟨1, ThreadStatus.RUNNING, 0⟩ 10,
   C9_sleep_requires_interrupts_on.2.1 ⟨100, [], []⟩ ⟨1, ThreadStatus.RUNNING, 0⟩ 50 1000 100,
   C9_sleep_requires_interrupts_on.2.2.2 ⟨100, [], []⟩ ⟨1, ThreadStatus.RUNNING, 0⟩ 50 1000 100⟩

/-- C7: when too few contiguous free pages are available in the selected pool
(the bitmap scan finds no clear run) and `PAL_ASSERT` is not set,
`palloc_get_multiple` returns the null pointer (`none`) and leaves the pools
unchanged instead of halting; `palloc_get_page` is exactly
`palloc_get_multiple` with one page; and the only way `palloc_get_multiple`
panics is the `PAL_ASSERT` out-of-pages panic. -/
theorem C7_palloc_exhaustion_recoverable :
    (∀ (flags : PallocFlags) (page_cnt : Nat) (st : PallocState),
      flags.pal_assert = false →
      bitmap_scan (if flags.pal_user then st.user_pool else st.kernel_pool).used_map
          page_cnt = none →
      palloc_get_multiple flags page_cnt st = Except.ok (none, st)) ∧
    (∀ (flags : PallocFlags) (st : PallocState),
      palloc_get_page flags st = palloc_get_multiple flags 1 st) ∧
    (∀ (flags : PallocFlags) (page_cnt : Nat) (st : PallocState) (e : KernelPanic),
      palloc_get_multiple flags page_cnt st = Except.error e →
      flags.pal_assert = true ∧ e = KernelPanic.outOfPages) := by
  refine ⟨fun flags cnt st ha hscan => ?_, fun flags st => rfl, fun flags cnt st e h => ?_⟩
  · simp [palloc_get_multiple, bitmap_scan_and_flip, hscan, ha]
  · rcases hscan2 : bitmap_scan
        (if flags.pal_user then st.user_pool else st.kernel_pool).used_map cnt with _ | i
    · simp only [palloc_get_multiple, bitmap_scan_and_flip, hscan2] at h
      by_cases hpa : flags.pal_assert = true
      · rw [if_pos hpa] at h
        exact ⟨hpa, (Except.error.inj h).symm⟩
      · rw [if_neg hpa] at h
        exact Except.noConfusion h
    · simp only [palloc_get_multiple, bitmap_scan_and_flip, hscan2] at h
      exact Except.noConfusion h

/-- Witness for C7: an exhausted one-page kernel pool (all pages used),
`PAL_ASSERT` clear — the allocation returns NULL with the pools unchanged. -/
theorem C7_palloc_exhaustion_recoverable_w :
    palloc_get_multiple ⟨false, false, false⟩ 1 ⟨⟨0, [true]⟩, ⟨4096, [true]⟩⟩
      = Except.ok (none, ⟨⟨0, [true]⟩, ⟨4096, [true]⟩⟩) :=
  C7_palloc_exhaustion_recoverable.1 ⟨false, false, false⟩ 1
    ⟨⟨0, [true]⟩, ⟨4096, [true]⟩⟩ rfl (by decide)

/-- C10 counterexample: a call `palloc_free_multiple (pages, page_cnt)` with
`page_cnt == 0` but `pages` a non-null, non-page-aligned pointer (address 1)
does not return: the alignment assertion `pg_ofs (pages) == 0`, which runs
before the NULL/zero early return, fails and the kernel halts. -/
theorem C10_counterexample :
    palloc_free_multiple ⟨⟨0, [true]⟩, ⟨4096, [true]⟩⟩ 1 0
        = Except.error KernelPanic.pgOfsAssert ∧
    palloc_free_multiple ⟨⟨0, [true]⟩, ⟨4096, [true]⟩⟩ 1 0
        ≠ Except.ok (⟨⟨0, [true]⟩, ⟨4096, [true]⟩⟩ : PallocState) := by
  refine ⟨rfl, fun h => ?_⟩
  have h2 : Except.error KernelPanic.pgOfsAssert
      = Except.ok (⟨⟨0, [true]⟩, ⟨4096, [true]⟩⟩ : PallocState) := h
  exact Except.noConfusion h2

/-- C10 amended: for every call with a page-aligned `pages` argument — which
includes `pages == NULL`, since `pg_ofs (NULL) == 0` — such that
`pages == NULL` or `page_cnt == 0`, `palloc_free_multiple` returns without
modifying either pool's `used_map` or any other allocator state; a non-null
unaligned `pages` instead fails the alignment assertion even when
`page_cnt == 0`. -/
theorem C10_amended_free_null_or_zero_noop :
    ∀ (st : PallocState) (pages page_cnt : Nat),
      pg_ofs pages = 0 → (pages = 0 ∨ page_cnt = 0) →
      palloc_free_multiple st pages page_cnt = Except.ok st := by
  intro st pages cnt h0 hz
  unfold palloc_free_multiple
  rw [if_neg (by simp [h0]), if_pos hz]

/-- Witness for C10's amended claim: freeing NULL and freeing zero pages at
an aligned address both leave the allocator state untouched. -/
theorem C10_amended_free_null_or_zero_noop_w :
    palloc_free_multiple ⟨⟨0, [true]⟩, ⟨4096, [true]⟩⟩ 0 5
        = Except.ok (⟨⟨0, [true]⟩, ⟨4096, [true]⟩⟩ : PallocState) ∧
    palloc_free_multiple ⟨⟨0, [true]⟩, ⟨4096, [true]⟩⟩ 4096 0
        = Except.ok (⟨⟨0, [true]⟩, ⟨4096, [true]⟩⟩ : PallocState) :=
  ⟨C10_amended_free_null_or_zero_noop ⟨⟨0, [true]⟩, ⟨4096, [true]⟩⟩ 0 5 rfl (Or.inl rfl),
   C10_amended_free_null_or_zero_noop ⟨⟨0, [true]⟩, ⟨4096, [true]⟩⟩ 4096 0 rfl (Or.inr rfl)⟩

theorem readyRel_le {a b : RThread} (h : readyRel a b) : b.priority ≤ a.priority := by
  rcases h with h | ⟨h, _⟩
  · exact le_of_lt h
  · exact le_of_eq h.symm

theorem mem_insert_ordered {t x : RThread} {l : List RThread} :
    x ∈ list_insert_ordered t l ↔ x = t ∨ x ∈ l := by
  induction l with
  | nil => simp [list_insert_ordered]
  | cons b bs ih =>
      simp only [list_insert_ordered]
      by_cases hc : cmp_priority_ready t b = true
      · rw [if_pos hc]
        simp [List.mem_cons]
      · rw [if_neg hc]
        simp only [List.mem_cons, ih]
        tauto

theorem pairwise_insert_ordered {t : RThread} {l : List RThread}
    (hl : l.Pairwise readyRel) (ha : ∀ x ∈ l, x.arrival < t.arrival) :
    (list_insert_ordered t l).Pairwise readyRel := by
  induction l with
  | nil => simp [list_insert_ordered, List.pairwise_singleton]
  | cons b bs ih =>
      simp only [list_insert_ordered]
      rcases List.pairwise_cons.mp hl with ⟨hb, hbs⟩
      by_cases hc : cmp_priority_ready t b = true
      · rw [if_pos hc]
        have htb : b.priority < t.priority := by
          simpa [cmp_priority_ready] using hc
        refine List.pairwise_cons.mpr ⟨?_, hl⟩
        intro y hy
        rcases List.mem_cons.mp hy with rfl | hy
        · exact Or.inl htb
        · exact Or.inl (lt_of_le_of_lt (readyRel_le (hb y hy)) htb)
      · rw [if_neg hc]
        have htb : t.priority ≤ b.priority := by
          simpa [cmp_priority_ready] using hc
        refine List.pairwise_cons.mpr
          ⟨?_, ih hbs (fun x hx => ha x (List.mem_cons_of_mem b hx))⟩
        intro y hy
        rcases mem_insert_ordered.mp hy with rfl | hy
        · rcases lt_or_eq_of_le htb with hlt | heq
          · exact Or.inl hlt
          · exact Or.inr ⟨heq.symm, ha b (List.mem_cons_self b bs)⟩
        · exact hb y hy

theorem buildReady_pairwise (xs : List (Nat × Int)) (i : Nat) (acc : List RThread)
    (hacc : acc.Pairwise readyRel) (harr : ∀ x ∈ acc, x.arrival < i) :
    (buildReady i xs acc).Pairwise readyRel := by
  induction xs generalizing i acc with
  | nil => simpa [buildReady] using hacc
  | cons p ps ih =>
      simp only [buildReady]
      apply ih
      · exact pairwise_insert_ordered hacc (fun x hx => harr x hx)
      · intro x hx
        rcases mem_insert_ordered.mp hx with rfl | hx
        · exact Nat.lt_succ_self i
        · exact Nat.lt_trans (harr x hx) (Nat.lt_succ_self i)

theorem pairwise_head_max {h : RThread} {rest : List RThread}
    (hp : (h :: rest).Pairwise readyRel) :
    (∀ x ∈ rest, x.priority ≤ h.priority) ∧
    (∀ x ∈ rest, x.priority = h.priority → h.arrival < x.arrival) := by
  rcases List.pairwise_cons.mp hp with ⟨hh, _⟩
  refine ⟨fun x hx => readyRel_le (hh x hx), fun x hx he => ?_⟩
  rcases hh x hx with hlt | ⟨_, ha⟩
  · omega
  · exact ha

/-- C6: in a ready queue built by inserting threads in the order they became
Ready, the thread picked next (the front of the queue) has effective priority
`≥` every other ready thread's effective priority, and among threads tied at
the maximum the one that became Ready earliest (smallest arrival stamp) is
picked. -/
theorem C6_pick_next_highest_priority_fifo :
    ∀ (xs : List (Nat × Int)) (h : RThread) (rest : List RThread),
      ready_queue xs = h :: rest →
      next_thread_to_run (ready_queue xs) = some h ∧
      (∀ x ∈ rest, x.priority ≤ h.priority) ∧
      (∀ x ∈ rest, x.priority = h.priority → h.arrival < x.arrival) := by
  intro xs h rest he
  have hp : (ready_queue xs).Pairwise readyRel :=
    buildReady_pairwise xs 0 [] List.Pairwise.nil (by simp)
  rw [he] at hp
  have hm := pairwise_head_max hp
  exact ⟨by rw [he]; rfl, hm.1, hm.2⟩

/-- Witness for C6: with arrivals `(tid 1, prio 5)`, `(tid 2, prio 7)`,
`(tid 3, prio 7)`, the scheduler picks thread 2 — maximal priority 7, and the
earlier-arrived of the two threads with priority 7. -/
theorem C6_pick_next_highest_priority_fifo_w :
    next_thread_to_run (ready_queue [(1, 5), (2, 7), (3, 7)]) = some ⟨2, 7, 1⟩ ∧
    (∀ x ∈ [(⟨3, 7, 2⟩ : RThread), ⟨1, 5, 0⟩], x.priority ≤ (7 : Int)) :=
  ⟨(C6_pick_next_highest_priority_fifo [(1, 5), (2, 7), (3, 7)] ⟨2, 7, 1⟩
      [⟨3, 7, 2⟩, ⟨1, 5, 0⟩] rfl).1,
   (C6_pick_next_highest_priority_fifo [(1, 5), (2, 7), (3, 7)] ⟨2, 7, 1⟩
      [⟨3, 7, 2⟩, ⟨1, 5, 0⟩] rfl).2.1⟩

theorem pickMax_mem (w : SemWaiter) (ws : List SemWaiter) : pickMax w ws ∈ w :: ws := by
  induction ws generalizing w with
  | nil => exact List.mem_singleton.mpr rfl
  | cons b bs ih =>
      by_cases hc : w.priority < b.priority
      · have hstep : pickMax w (b :: bs) = pickMax b bs := by
          show pickMax (if w.priority < b.priority then b else w) bs = pickMax b bs
          rw [if_pos hc]
        rw [hstep]
        exact List.mem_cons.mpr (Or.inr (ih b))
      · have hstep : pickMax w (b :: bs) = pickMax w bs := by
          show pickMax (if w.priority < b.priority then b else w) bs = pickMax w bs
          rw [if_neg hc]
        rw [hstep]
        rcases List.mem_cons.mp (ih w) with he | hm
        · exact List.mem_cons.mpr (Or.inl he)
        · exact List.mem_cons.mpr (Or.inr (List.mem_cons.mpr (Or.inr hm)))

theorem map_tid_eraseTid (i : Nat) (l : List SemWaiter) :
    (eraseTid i l).map (fun w => w.tid) = (l.map (fun w => w.tid)).erase i := by
  induction l with
  | nil => rfl
  | cons x xs ih =>
      simp only [eraseTid]
      by_cases hx : x.tid = i
      · rw [if_pos hx]
        simp [List.erase_cons, hx]
      · rw [if_neg hx]
        simp [List.erase_cons, hx, ih]

theorem semaInv_init (n : Int) (hn : 0 ≤ n) : SemaInv n (sema_init n) := by
  refine ⟨hn, by simp [sema_init], ?_, by simp [sema_init]⟩
  intro i
  simp [sema_init]

theorem semaInv_down {n : Int} {s : SemaState} (h : SemaInv n s) (t : SemWaiter) :
    SemaInv n (sema_down s t) := by
  obtain ⟨h0, h1, h2, h3⟩ := h
  unfold sema_down
  by_cases hb : s.status t.tid = ThreadStatus.BLOCKED
  · rw [if_pos hb]
    exact ⟨h0, h1, h2, h3⟩
  · rw [if_neg hb]
    by_cases hv : s.value = 0
    · rw [if_pos hv]
      refine ⟨h0, h1, ?_, ?_⟩
      · intro i
        simp only [List.map_append, List.map_cons, List.map_nil, List.mem_append,
          List.mem_singleton, setStatus]
        by_cases hi : i = t.tid
        · subst hi
          simp
        · simp [hi, h2 i]
      · have hnot : t.tid ∉ s.waiters.map (fun w => w.tid) :=
          fun hmem => hb ((h2 t.tid).mp hmem)
        simp [List.nodup_append, hnot, h3]
    · rw [if_neg hv]
      refine ⟨?_, ?_, h2, h3⟩
      · show (0 : Int) ≤ s.value - 1
        omega
      · push_cast
        omega

theorem semaInv_up {n : Int} {s : SemaState} (h : SemaInv n s) : SemaInv n (sema_up s) := by
  obtain ⟨h0, h1, h2, h3⟩ := h
  rcases hw : s.waiters with _ | ⟨w, ws⟩
  · have hs : sema_up s = { s with value := s.value + 1, ups := s.ups + 1 } := by
      unfold sema_up
      rw [hw]
    rw [hs]
    refine ⟨?_, ?_, h2, h3⟩
    · show (0 : Int) ≤ s.value + 1
      omega
    · push_cast
      omega
  · have hs : sema_up s = { s with
        waiters := eraseTid (pickMax w ws).tid (w :: ws),
        status := setStatus s.status (pickMax w ws).tid ThreadStatus.READY,
        completed := s.completed + 1, ups := s.ups + 1 } := by
      unfold sema_up
      rw [hw]
    rw [hs]
    have h3w : ((w :: ws).map (fun x => x.tid)).Nodup := by rw [← hw]; exact h3
    refine ⟨h0, ?_, ?_, ?_⟩
    · push_cast
      omega
    · intro i
      simp only [map_tid_eraseTid, setStatus]
      rw [h3w.mem_erase_iff]
      by_cases hi : i = (pickMax w ws).tid
      · subst hi
        simp
      · have hrw : ((w :: ws).map (fun x => x.tid)) = s.waiters.map (fun x => x.tid) := by
          rw [hw]
        rw [hrw]
        simp [hi, h2 i]
    · simp only [map_tid_eraseTid]
      exact h3w.erase _

theorem semaInv_run (n : Int) (ops : List SemaOp) (hn : 0 ≤ n) :
    SemaInv n (runSema n ops) := by
  have hfold : ∀ (l : List SemaOp) (s : SemaState),
      SemaInv n s → SemaInv n (l.foldl semaStep s) := by
    intro l
    induction l with
    | nil => intro s hs; simpa using hs
    | cons op rest ih =>
        intro s hs
        simp only [List.foldl_cons]
        apply ih
        cases op with
        | down t => exact semaInv_down hs t
        | up => exact semaInv_up hs
  exact hfold ops _ (semaInv_init n hn)

/-- C5: for every semaphore initialised with `n ≥ 0` and every finite
sequence of `down`/`up` events, the count is never negative; at most
`n + (number of ups)` downs have completed, i.e. every completed `down` is
covered by a matching `up` or by the pre-existing positive count; and a
thread is in the semaphore's waiter collection exactly when it is blocked on
the semaphore. -/
theorem C5_semaphore_invariants :
    ∀ (n : Int) (ops : List SemaOp), 0 ≤ n →
      0 ≤ (runSema n ops).value ∧
      ((runSema n ops).completed : Int) ≤ n + ((runSema n ops).ups : Int) ∧
      (∀ i : Nat, i ∈ (runSema n ops).waiters.map (fun w => w.tid) ↔
        (runSema n ops).status i = ThreadStatus.BLOCKED) := by
  intro n ops hn
  obtain ⟨h0, h1, h2, _⟩ := semaInv_run n ops hn
  exact ⟨h0, by omega, h2⟩

/-- Witness for C5: from `init(0)`, two downs block threads 1 and 2, two ups
wake them (highest priority first), then thread 3 blocks on a third down;
throughout, the final state has non-negative count, completed downs covered
by ups, and thread 3 is a waiter iff blocked. -/
theorem C5_semaphore_invariants_w :
    0 ≤ (runSema 0 [SemaOp.down ⟨1, 5⟩, SemaOp.down ⟨2, 7⟩, SemaOp.up, SemaOp.up,
        SemaOp.down ⟨3, 1⟩]).value ∧
    ((runSema 0 [SemaOp.down ⟨1, 5⟩, SemaOp.down ⟨2, 7⟩, SemaOp.up, SemaOp.up,
        SemaOp.down ⟨3, 1⟩]).completed : Int)
      ≤ 0 + ((runSema 0 [SemaOp.down ⟨1, 5⟩, SemaOp.down ⟨2, 7⟩, SemaOp.up, SemaOp.up,
        SemaOp.down ⟨3, 1⟩]).ups : Int) :=
  ⟨(C5_semaphore_invariants 0 [SemaOp.down ⟨1, 5⟩, SemaOp.down ⟨2, 7⟩, SemaOp.up,
      SemaOp.up, SemaOp.down ⟨3, 1⟩] (by omega)).1,
   (C5_semaphore_invariants 0 [SemaOp.down ⟨1, 5⟩, SemaOp.down ⟨2, 7⟩, SemaOp.up,
      SemaOp.up, SemaOp.down ⟨3, 1⟩] (by omega)).2.1⟩
